import Mathlib

/-!
Verification of the PPSSPP HLE syscall-dispatch core (Core/HLE/HLE.cpp):
module registry, syscall opcode encoder/decoder, call-site patcher and
deferred resolver, and the post-call action coordinator.  The definitions
below are a shallow embedding of the C++ source: machine integers are
modelled as `Nat` with explicit `% 2^32` where conversion to `u32`
matters, C strings as `List Char` (without the terminating NUL), null
host-function pointers as `Option`, and externally observable calls
(kernel reschedule, interrupt dispatch, logging, guest-memory writes) as
explicit event lists in program order.
-/

namespace PPSSPP

/-! ## Post-call action bitmask constants (HLE.cpp enum) -/

def HLE_AFTER_NOTHING : Nat := 0x00
def HLE_AFTER_RESCHED : Nat := 0x01
def HLE_AFTER_CURRENT_CALLBACKS : Nat := 0x02
def HLE_AFTER_ALL_CALLBACKS : Nat := 0x04
def HLE_AFTER_RESCHED_CALLBACKS : Nat := 0x08
def HLE_AFTER_RUN_INTERRUPTS : Nat := 0x10
def HLE_AFTER_DEBUG_BREAK : Nat := 0x20

/-! ## Coordinator state: `hleAfterSyscall` and the 512-byte reason buffer -/

/-- Capacity of `hleAfterSyscallReschedReason` (`char[512]`). -/
def RESCHED_REASON_CAP : Nat := 512

/-- The process-wide post-call coordinator state: the `hleAfterSyscall`
bitmask and the contents of the `hleAfterSyscallReschedReason` buffer,
modelled as the C string it holds (chars before the first NUL). -/
structure HLEState where
  hleAfterSyscall : Nat
  reschedReason : List Char
deriving DecidableEq

/-- A request a dispatched service-function body may raise: one call to a
coordinator request operation.  A `none` reason models a null `const char *`. -/
inductive HLERequest where
  | reSchedule (reason : Option (List Char))
  | reScheduleCB (callbacks : Bool) (reason : Option (List Char))
  | checkAllCallbacks
  | checkCurrentCallbacks
  | runInterrupts
  | debugBreak
deriving DecidableEq

/-- `hleCheckAllCallbacks`: raise `HLE_AFTER_ALL_CALLBACKS`. -/
def hleCheckAllCallbacks (s : HLEState) : HLEState :=
  { s with hleAfterSyscall := s.hleAfterSyscall ||| HLE_AFTER_ALL_CALLBACKS }

/-- `hleCheckCurrentCallbacks`: raise `HLE_AFTER_CURRENT_CALLBACKS`. -/
def hleCheckCurrentCallbacks (s : HLEState) : HLEState :=
  { s with hleAfterSyscall := s.hleAfterSyscall ||| HLE_AFTER_CURRENT_CALLBACKS }

/-- `hleReSchedule(const char *reason)`: raise `HLE_AFTER_RESCHED` and store
the reason in the fixed buffer: a null reason is replaced by the placeholder,
a reason of length at least the capacity is truncated to capacity minus one
characters (memcpy of 511 bytes plus a forced terminator), otherwise the
reason is copied verbatim. -/
def hleReSchedule (reason : Option (List Char)) (s : HLEState) : HLEState :=
  let s1 : HLEState :=
    { s with hleAfterSyscall := s.hleAfterSyscall ||| HLE_AFTER_RESCHED }
  match reason with
  | none => { s1 with reschedReason := String.toList "Invalid reason" }
  | some r =>
      if r.length ≥ RESCHED_REASON_CAP then
        { s1 with reschedReason := r.take (RESCHED_REASON_CAP - 1) }
      else
        { s1 with reschedReason := r }

/-- `hleReSchedule(bool callbacks, const char *reason)`: as `hleReSchedule`,
and when `callbacks` also raise `HLE_AFTER_RESCHED_CALLBACKS`. -/
def hleReScheduleCB (callbacks : Bool) (reason : Option (List Char)) (s : HLEState) : HLEState :=
  let s1 := hleReSchedule reason s
  if callbacks then
    { s1 with hleAfterSyscall := s1.hleAfterSyscall ||| HLE_AFTER_RESCHED_CALLBACKS }
  else s1

/-- `hleRunInterrupts`: raise `HLE_AFTER_RUN_INTERRUPTS`. -/
def hleRunInterrupts (s : HLEState) : HLEState :=
  { s with hleAfterSyscall := s.hleAfterSyscall ||| HLE_AFTER_RUN_INTERRUPTS }

/-- `hleDebugBreak`: raise `HLE_AFTER_DEBUG_BREAK`. -/
def hleDebugBreak (s : HLEState) : HLEState :=
  { s with hleAfterSyscall := s.hleAfterSyscall ||| HLE_AFTER_DEBUG_BREAK }

/-- Effect of one request operation on the coordinator state. -/
def applyRequest (s : HLEState) : HLERequest → HLEState
  | .reSchedule r => hleReSchedule r s
  | .reScheduleCB cb r => hleReScheduleCB cb r s
  | .checkAllCallbacks => hleCheckAllCallbacks s
  | .checkCurrentCallbacks => hleCheckCurrentCallbacks s
  | .runInterrupts => hleRunInterrupts s
  | .debugBreak => hleDebugBreak s

/-- Effect of a dispatched service-function body, modelled as the ordered
list of request operations it performs. -/
def runBody (body : List HLERequest) (s : HLEState) : HLEState :=
  body.foldl applyRequest s

/-! ## Data model: registered modules and functions -/

/-- An `HLEFunction` table entry: NID, display name, and the host function
pointer; `none` models a null pointer (registered but unimplemented), and an
implemented body is abstracted by the requests it raises on the coordinator. -/
structure HLEFunction where
  ID : Nat
  name : List Char
  func : Option (List HLERequest)
deriving DecidableEq

instance : Inhabited HLEFunction := ⟨⟨0, [], none⟩⟩

/-- An `HLEModule`: name plus function table (`numFunctions` is the table
length). -/
structure HLEModule where
  name : List Char
  funcTable : List HLEFunction
deriving DecidableEq

instance : Inhabited HLEModule := ⟨⟨[], []⟩⟩

/-- `GetModuleIndex`: first index whose module name matches by `strcmp`,
modelled as `Option` in place of the C++ `-1` sentinel. -/
def GetModuleIndex (moduleDB : List HLEModule) (moduleName : List Char) : Option Nat :=
  moduleDB.findIdx? (fun m => m.name == moduleName)

/-- `GetFuncIndex`: first index in the module function table whose ID is
`nib`, modelled as `Option` in place of the C++ `-1` sentinel. -/
def GetFuncIndex (moduleDB : List HLEModule) (moduleIndex : Nat) (nib : Nat) : Option Nat :=
  (moduleDB.getD moduleIndex default).funcTable.findIdx? (fun f => f.ID == nib)

/-! ## Syscall opcode encoder (GetSyscallOp) and dispatch-time decoder -/

/-- The opcode built for a resolved (module, function) pair:
`0x0000000c | (modindex << 18) | (funcindex << 6)`, converted to `u32`. -/
def encodeSyscallOp (modindex funcindex : Nat) : Nat :=
  (0x0000000c ||| (modindex <<< 18) ||| (funcindex <<< 6)) % 2 ^ 32

/-- The sentinel opcode built for a found module but unresolved function:
`0x0003FFCC | (modindex << 18)`, converted to `u32`. -/
def encodeInvalidSyscallOp (modindex : Nat) : Nat :=
  (0x0003FFCC ||| (modindex <<< 18)) % 2 ^ 32

/-- `GetSyscallOp`: resolve module and function, returning the valid opcode,
the module-only sentinel, or the bare invalid sentinel `0x0003FFCC` when the
module is unknown (which also logs an error, not modelled here). -/
def GetSyscallOp (moduleDB : List HLEModule) (moduleName : List Char) (nib : Nat) : Nat :=
  match GetModuleIndex moduleDB moduleName with
  | some modindex =>
      match GetFuncIndex moduleDB modindex nib with
      | some funcindex => encodeSyscallOp modindex funcindex
      | none => encodeInvalidSyscallOp modindex
  | none => 0x0003FFCC

/-- Dispatch-time decode, from `CallSyscall`: `callno = (op >> 6) & 0xFFFFF`. -/
def decodeCallno (op : Nat) : Nat := (op >>> 6) &&& 0xFFFFF

/-- Dispatch-time decode, from `CallSyscall`: `funcnum = callno & 0xFFF`. -/
def decodeFuncnum (op : Nat) : Nat := decodeCallno op &&& 0xFFF

/-- Dispatch-time decode, from `CallSyscall`:
`modulenum = (callno & 0xFF000) >> 12`. -/
def decodeModulenum (op : Nat) : Nat := (decodeCallno op &&& 0xFF000) >>> 12

/-! ## Guest-memory patcher: WriteSyscall / ResolveSyscall -/

/-- Modelled from the spec: `MIPS_MAKE_JR_RA` is defined in
Core/MIPS/MIPSCodeUtils.h, which is not part of this excerpt; the spec calls
it the guest-native "return to caller" instruction.  Standard MIPS `jr ra`. -/
def MIPS_MAKE_JR_RA : Nat := 0x03E00008

/-- Modelled from the spec: `MIPS_MAKE_NOP` is defined in
Core/MIPS/MIPSCodeUtils.h, which is not part of this excerpt; the spec calls
it a no-op.  Standard MIPS `nop` (all-zero word). -/
def MIPS_MAKE_NOP : Nat := 0

/-- Modelled from the spec: `MIPS_MAKE_J` is defined in
Core/MIPS/MIPSCodeUtils.h, which is not part of this excerpt; the spec calls
it an unconditional jump (J, opcode 2, not JAL).  Standard MIPS J encoding. -/
def MIPS_MAKE_J (target : Nat) : Nat := 0x08000000 ||| ((target >>> 2) &&& 0x3FFFFFF)

/-- Modelled from the spec (for contrast only): standard MIPS JAL (opcode 3)
encoding, the "call" form that `ResolveSyscall` deliberately does not use. -/
def MIPS_MAKE_JAL (target : Nat) : Nat := 0x0C000000 ||| ((target >>> 2) &&& 0x3FFFFFF)

/-- A deferred `Syscall` record: `{char moduleName[32]; u32 symAddr; u32 nid;}`.
The stored name is the C string in the 32-byte buffer (at most 31 chars). -/
structure Syscall where
  moduleName : List Char
  symAddr : Nat
  nid : Nat
deriving DecidableEq

/-- `WriteSyscall`: returns the ordered `Memory::Write_U32` calls `(addr, value)`
and the updated `unresolvedSyscalls` list.  `nib == 0` stamps
`jr ra; nop` with no module lookup; a registered module stamps
`jr ra; GetSyscallOp(...)`; an unregistered module appends one deferred
record (name truncated by `strncpy(..., 32)` plus forced NUL, i.e. 31 chars)
and writes nothing. -/
def WriteSyscall (moduleDB : List HLEModule) (pending : List Syscall)
    (moduleName : List Char) (nib : Nat) (address : Nat) :
    List (Nat × Nat) × List Syscall :=
  if nib == 0 then
    ([(address, MIPS_MAKE_JR_RA), (address + 4, MIPS_MAKE_NOP)], pending)
  else
    match GetModuleIndex moduleDB moduleName with
    | some _ =>
        ([(address, MIPS_MAKE_JR_RA), (address + 4, GetSyscallOp moduleDB moduleName nib)],
          pending)
    | none =>
        ([], pending ++ [{ moduleName := moduleName.take 31, symAddr := address, nid := nib }])

/-- Match test of the `ResolveSyscall` loop:
`strncmp(sysc->moduleName, moduleName, 32) == 0 && sysc->nid == nib`.
`strncmp(a, b, n) == 0` on NUL-terminated strings is equality of the two
length-`n` prefixes. -/
def syscallMatches (sysc : Syscall) (moduleName : List Char) (nib : Nat) : Bool :=
  sysc.moduleName.take 32 == moduleName.take 32 && sysc.nid == nib

/-- The loop body of `ResolveSyscall`: writes emitted for the scanned entries,
in scan order. -/
def resolveWrites (pending : List Syscall) (moduleName : List Char) (nib : Nat)
    (address : Nat) : List (Nat × Nat) :=
  match pending with
  | [] => []
  | sysc :: rest =>
      (if syscallMatches sysc moduleName nib then
        [(sysc.symAddr, MIPS_MAKE_J address), (sysc.symAddr + 4, MIPS_MAKE_NOP)]
      else []) ++ resolveWrites rest moduleName nib address

/-- `ResolveSyscall`: scans `unresolvedSyscalls`; every matching entry gets
`J target; nop` written at its recorded patch site.  The list itself is only
read, never mutated, so it is returned unchanged. -/
def ResolveSyscall (pending : List Syscall) (moduleName : List Char) (nib : Nat)
    (address : Nat) : List (Nat × Nat) × List Syscall :=
  (resolveWrites pending moduleName nib address, pending)

/-! ## Dispatcher and post-call coordinator -/

/-- Externally observable calls made by `CallSyscall` / `hleFinishSyscall`,
in program order. -/
inductive HLEEvent where
  | kernelForceCallbacks
  | runOnePendingInterrupt
  | kernelReScheduleCB (reason : List Char)
  | kernelReSchedule (reason : List Char)
  | kernelCheckCallbacks
  | coreEnableStepping
  | hostSetDebugMode
  | errorUnknownSyscall (moduleName : List Char)
  | errorUnimplemented (funcName : List Char)
  | invoke (modulenum funcnum : Nat)
deriving DecidableEq

def NID_SUSPEND_INTR : Nat := 0x092968F4
def NID_RESUME_INTR : Nat := 0x5F10D406

/-- The debug-break blacklist `{NID_SUSPEND_INTR, NID_RESUME_INTR, NID_IDLE}`.
`NID_IDLE` is defined in sceKernelThread, outside this excerpt, so it is
taken as a parameter (the spec only says the blacklist holds the
suspend-interrupt, resume-interrupt and idle identifiers). -/
def blacklistedNIDs (nidIdle : Nat) : List Nat :=
  [NID_SUSPEND_INTR, NID_RESUME_INTR, nidIdle]

/-- `hleExecuteDebugBreak`: returns false for a blacklisted function; otherwise
enables core stepping, notifies the host debug hook, and returns true. -/
def hleExecuteDebugBreak (nidIdle : Nat) (func : HLEFunction) : Bool × List HLEEvent :=
  if (blacklistedNIDs nidIdle).contains func.ID then (false, [])
  else (true, [.coreEnableStepping, .hostSetDebugMode])

/-- `hleFinishSyscall`: consume the post-call bitmask in the fixed order
(current callbacks, one interrupt, then exactly one of
reschedule-with-callbacks / plain reschedule / all-callbacks), then handle a
pending debug break: a blacklisted function keeps the mask narrowed to
`HLE_AFTER_DEBUG_BREAK` with the reason cleared; otherwise everything resets. -/
def hleFinishSyscall (nidIdle : Nat) (moduleDB : List HLEModule)
    (modulenum funcnum : Nat) (s : HLEState) : List HLEEvent × HLEState :=
  let e1 : List HLEEvent :=
    if s.hleAfterSyscall &&& HLE_AFTER_CURRENT_CALLBACKS ≠ 0 then
      [.kernelForceCallbacks] else []
  let e2 : List HLEEvent :=
    if s.hleAfterSyscall &&& HLE_AFTER_RUN_INTERRUPTS ≠ 0 then
      [.runOnePendingInterrupt] else []
  let e3 : List HLEEvent :=
    if s.hleAfterSyscall &&& HLE_AFTER_RESCHED_CALLBACKS ≠ 0 then
      [.kernelReScheduleCB s.reschedReason]
    else if s.hleAfterSyscall &&& HLE_AFTER_RESCHED ≠ 0 then
      [.kernelReSchedule s.reschedReason]
    else if s.hleAfterSyscall &&& HLE_AFTER_ALL_CALLBACKS ≠ 0 then
      [.kernelCheckCallbacks]
    else []
  if s.hleAfterSyscall &&& HLE_AFTER_DEBUG_BREAK ≠ 0 then
    let func := (moduleDB.getD modulenum default).funcTable.getD funcnum default
    let stepped := hleExecuteDebugBreak nidIdle func
    if stepped.1 then
      (e1 ++ e2 ++ e3 ++ stepped.2, ⟨HLE_AFTER_NOTHING, []⟩)
    else
      (e1 ++ e2 ++ e3 ++ stepped.2, ⟨HLE_AFTER_DEBUG_BREAK, []⟩)
  else
    (e1 ++ e2 ++ e3, ⟨HLE_AFTER_NOTHING, []⟩)

/-- `CallSyscall`: decode `op`; a `funcnum == 0xFFF` or `op == 0xFFFF` opcode
logs one unknown-syscall error naming the decoded module and aborts; a null
function pointer logs one unimplemented error and aborts; otherwise the bound
function runs and, when the bitmask is non-empty, `hleFinishSyscall` follows. -/
def CallSyscall (nidIdle : Nat) (moduleDB : List HLEModule) (op : Nat)
    (s : HLEState) : List HLEEvent × HLEState :=
  let funcnum := decodeFuncnum op
  let modulenum := decodeModulenum op
  if funcnum == 0xFFF || op == 0xFFFF then
    ([.errorUnknownSyscall (moduleDB.getD modulenum default).name], s)
  else
    let entry := (moduleDB.getD modulenum default).funcTable.getD funcnum default
    match entry.func with
    | some body =>
        let s1 := runBody body s
        if s1.hleAfterSyscall ≠ HLE_AFTER_NOTHING then
          let finish := hleFinishSyscall nidIdle moduleDB modulenum funcnum s1
          (HLEEvent.invoke modulenum funcnum :: finish.1, finish.2)
        else
          ([.invoke modulenum funcnum], s1)
    | none =>
        ([.errorUnimplemented entry.name], s)

/-- Coordinator states reachable by repeated dispatches from the initial
state, with request operations raised only inside dispatched bodies (they are
part of each dispatched function's `HLERequest` list). -/
inductive DispatchReachable (nidIdle : Nat) (moduleDB : List HLEModule) : HLEState → Prop where
  | init : DispatchReachable nidIdle moduleDB ⟨HLE_AFTER_NOTHING, []⟩
  | step (s : HLEState) (op : Nat) (h : DispatchReachable nidIdle moduleDB s) :
      DispatchReachable nidIdle moduleDB (CallSyscall nidIdle moduleDB op s).2

/-! ## Arithmetic helper lemmas for the bit-layout proofs -/

lemma shiftRight_land_distrib (x y k : Nat) :
    (x &&& y) >>> k = (x >>> k) &&& (y >>> k) := by
  apply Nat.eq_of_testBit_eq
  intro i
  simp [Nat.testBit_shiftRight, Nat.testBit_and]

lemma land_mask_eq_mod (x k : Nat) : x &&& (2 ^ k - 1) = x % 2 ^ k :=
  Nat.and_pow_two_sub_one_eq_mod x k

lemma encodeSyscallOp_eq_add {m f : Nat} (hm : m < 256) (hf : f < 4096) :
    encodeSyscallOp m f = m * 2 ^ 18 + f * 2 ^ 6 + 12 := by
  unfold encodeSyscallOp
  rw [Nat.shiftLeft_eq, Nat.shiftLeft_eq]
  have h1 : f * 2 ^ 6 + 12 = 2 ^ 6 * f ||| 12 := by
    rw [← Nat.mul_add_lt_is_or (by norm_num) f]
    ring
  have h2 : m * 2 ^ 18 + (f * 2 ^ 6 + 12) = 2 ^ 18 * m ||| (f * 2 ^ 6 + 12) := by
    rw [← Nat.mul_add_lt_is_or (by omega) m]
    ring
  have key : 0x0000000c ||| m * 2 ^ 18 ||| f * 2 ^ 6 = m * 2 ^ 18 + f * 2 ^ 6 + 12 := by
    rw [show m * 2 ^ 18 + f * 2 ^ 6 + 12 = m * 2 ^ 18 + (f * 2 ^ 6 + 12) by ring, h2, h1]
    rw [show (2:Nat) ^ 18 * m = m * 2 ^ 18 by ring, show (2:Nat) ^ 6 * f = f * 2 ^ 6 by ring]
    rw [← Nat.or_assoc, Nat.or_comm (0x0000000c) (m * 2 ^ 18)]
    rw [Nat.or_assoc, Nat.or_comm 12 (f * 2 ^ 6), ← Nat.or_assoc]
  rw [key, Nat.mod_eq_of_lt (by omega)]

lemma encodeInvalidSyscallOp_eq_add {m : Nat} (hm : m < 256) :
    encodeInvalidSyscallOp m = m * 2 ^ 18 + 0x0003FFCC := by
  unfold encodeInvalidSyscallOp
  rw [Nat.shiftLeft_eq]
  have h2 : m * 2 ^ 18 + 0x0003FFCC = 2 ^ 18 * m ||| 0x0003FFCC := by
    rw [← Nat.mul_add_lt_is_or (by norm_num) m]
    ring
  rw [Nat.or_comm, show (2:Nat) ^ 18 * m = m * 2 ^ 18 by ring] at h2
  rw [← h2, Nat.mod_eq_of_lt (by omega)]

lemma decodeCallno_eq_mod (op : Nat) : decodeCallno op = (op / 2 ^ 6) % 2 ^ 20 := by
  unfold decodeCallno
  rw [Nat.shiftRight_eq_div_pow, show (0xFFFFF : Nat) = 2 ^ 20 - 1 by norm_num,
    land_mask_eq_mod]

lemma decodeFuncnum_eq_mod (op : Nat) : decodeFuncnum op = (op / 2 ^ 6) % 2 ^ 12 := by
  unfold decodeFuncnum
  rw [decodeCallno_eq_mod, show (0xFFF : Nat) = 2 ^ 12 - 1 by norm_num, land_mask_eq_mod,
    Nat.mod_mod_of_dvd _ (by norm_num)]

lemma decodeModulenum_eq_mod (op : Nat) :
    decodeModulenum op = ((op / 2 ^ 6) % 2 ^ 20 / 2 ^ 12) % 2 ^ 8 := by
  unfold decodeModulenum
  rw [decodeCallno_eq_mod, shiftRight_land_distrib,
    show (0xFF000 : Nat) >>> 12 = 2 ^ 8 - 1 by decide, land_mask_eq_mod,
    Nat.shiftRight_eq_div_pow]

lemma lor_land_ne_zero_of_left {x b : Nat} (y : Nat) (h : x &&& b ≠ 0) :
    (x ||| y) &&& b ≠ 0 := by
  obtain ⟨i, hi⟩ := Nat.ne_zero_implies_bit_true h
  intro hc
  have h2 : ((x ||| y) &&& b).testBit i = true := by
    simp only [Nat.testBit_and, Nat.testBit_or, Bool.and_eq_true, Bool.or_eq_true] at hi ⊢
    exact ⟨Or.inl hi.1, hi.2⟩
  rw [hc] at h2
  simp at h2

lemma lor_self_land_ne_zero (x : Nat) {b : Nat} (hb : b ≠ 0) :
    (x ||| b) &&& b ≠ 0 := by
  obtain ⟨i, hi⟩ := Nat.ne_zero_implies_bit_true hb
  intro hc
  have h2 : ((x ||| b) &&& b).testBit i = true := by
    simp [Nat.testBit_and, Nat.testBit_or, hi]
  rw [hc] at h2
  simp at h2

/-! ## Claim theorems -/

/-- Claim C1: for every module index below 256 and function index below 4096,
decoding the opcode built by the syscall encoder yields exactly that pair,
the function index occupies bits 17..6, the module index occupies bits
25..18, the low 6 bits are the constant tag 0x0C, and `GetSyscallOp` produces
exactly this encoding for a registered module and function. -/
theorem C1_encode_decode_roundtrip (m f : Nat) (hm : m < 256) (hf : f < 4096) :
    decodeFuncnum (encodeSyscallOp m f) = f ∧
    decodeModulenum (encodeSyscallOp m f) = m ∧
    (encodeSyscallOp m f >>> 6) % 2 ^ 12 = f ∧
    (encodeSyscallOp m f >>> 18) % 2 ^ 8 = m ∧
    encodeSyscallOp m f % 2 ^ 6 = 0x0C ∧
    (∀ moduleDB moduleName nib,
      GetModuleIndex moduleDB moduleName = some m →
      GetFuncIndex moduleDB m nib = some f →
      GetSyscallOp moduleDB moduleName nib = encodeSyscallOp m f) := by
  have hE := encodeSyscallOp_eq_add hm hf
  refine ⟨?_, ?_, ?_, ?_, ?_, ?_⟩
  · rw [decodeFuncnum_eq_mod, hE]; omega
  · rw [decodeModulenum_eq_mod, hE]; omega
  · rw [Nat.shiftRight_eq_div_pow, hE]; omega
  · rw [Nat.shiftRight_eq_div_pow, hE]; omega
  · rw [hE]; omega
  · intro moduleDB moduleName nib h1 h2
    simp [GetSyscallOp, h1, h2]

/-- Witness for C1 at the concrete pair (5, 7). -/
theorem C1_encode_decode_roundtrip_witness :
    decodeFuncnum (encodeSyscallOp 5 7) = 7 :=
  (C1_encode_decode_roundtrip 5 7 (by norm_num) (by norm_num)).1

/-- Claim C5 counterexample: the invalid-call sentinel opcode does NOT use a
low-bit discriminator pattern distinct from the valid-call tag — at module
index 0 both the sentinel and a valid opcode have low 6 bits 0x0C. -/
theorem C5_counterexample_low_bits_equal :
    encodeInvalidSyscallOp 0 % 2 ^ 6 = 0x0C ∧ encodeSyscallOp 0 0 % 2 ^ 6 = 0x0C := by
  decide

/-- Claim C5 (amended): the sentinel opcode for a found module but unresolved
function is distinguished not by its low bits (they equal the valid-call tag
0x0C) but by carrying the all-ones function-index field 0xFFF, which the
dispatcher special-cases, logging the module and invoking no host function. -/
theorem C5_sentinel_special_cased (m : Nat) (hm : m < 256) :
    decodeFuncnum (encodeInvalidSyscallOp m) = 0xFFF ∧
    decodeModulenum (encodeInvalidSyscallOp m) = m ∧
    encodeInvalidSyscallOp m % 2 ^ 6 = 0x0C ∧
    (∀ nidIdle moduleDB s,
      CallSyscall nidIdle moduleDB (encodeInvalidSyscallOp m) s =
        ([.errorUnknownSyscall (moduleDB.getD m default).name], s)) := by
  have hE := encodeInvalidSyscallOp_eq_add hm
  have hfn : decodeFuncnum (encodeInvalidSyscallOp m) = 0xFFF := by
    rw [decodeFuncnum_eq_mod, hE]; omega
  have hmn : decodeModulenum (encodeInvalidSyscallOp m) = m := by
    rw [decodeModulenum_eq_mod, hE]; omega
  refine ⟨hfn, hmn, by rw [hE]; omega, ?_⟩
  intro nidIdle moduleDB s
  simp [CallSyscall, hfn, hmn]

/-- Witness for C5 (amended) at module index 3. -/
theorem C5_sentinel_special_cased_witness :
    decodeFuncnum (encodeInvalidSyscallOp 3) = 0xFFF :=
  (C5_sentinel_special_cased 3 (by norm_num)).1

/-- Claim C4: an opcode whose decoded function index is the all-ones pattern
0xFFF, or whose raw value is the all-ones invalid marker 0xFFFF, makes the
dispatcher log exactly one error naming the decoded module and return with
the state untouched and no function invoked. -/
theorem C4_sentinel_dispatch_aborts (nidIdle : Nat) (moduleDB : List HLEModule)
    (op : Nat) (s : HLEState)
    (h : decodeFuncnum op = 0xFFF ∨ op = 0xFFFF) :
    CallSyscall nidIdle moduleDB op s =
      ([.errorUnknownSyscall (moduleDB.getD (decodeModulenum op) default).name], s) ∧
    (∀ mn fn, HLEEvent.invoke mn fn ∉ (CallSyscall nidIdle moduleDB op s).1) := by
  have heq : CallSyscall nidIdle moduleDB op s =
      ([.errorUnknownSyscall (moduleDB.getD (decodeModulenum op) default).name], s) := by
    rcases h with h | h
    · simp [CallSyscall, h]
    · simp [CallSyscall, h]
  refine ⟨heq, ?_⟩
  intro mn fn
  rw [heq]
  simp

/-- Witness for C4 at the all-ones marker 0xFFFF with an empty registry. -/
theorem C4_sentinel_dispatch_aborts_witness :
    CallSyscall 0 [] 0xFFFF ⟨HLE_AFTER_NOTHING, []⟩ =
      ([.errorUnknownSyscall []], ⟨HLE_AFTER_NOTHING, []⟩) :=
  (C4_sentinel_dispatch_aborts 0 [] 0xFFFF ⟨HLE_AFTER_NOTHING, []⟩ (Or.inr rfl)).1

/-- Claim C8: dispatching an opcode that decodes to a registered slot whose
host function pointer is null logs exactly one unimplemented-function error
(naming the function) and returns with the coordinator state untouched and
nothing invoked. -/
theorem C8_unimplemented_function_noop (nidIdle : Nat) (moduleDB : List HLEModule)
    (op : Nat) (s : HLEState)
    (h1 : decodeFuncnum op ≠ 0xFFF) (h2 : op ≠ 0xFFFF)
    (h3 : ((moduleDB.getD (decodeModulenum op) default).funcTable.getD
            (decodeFuncnum op) default).func = none) :
    CallSyscall nidIdle moduleDB op s =
      ([.errorUnimplemented ((moduleDB.getD (decodeModulenum op) default).funcTable.getD
          (decodeFuncnum op) default).name], s) := by
  simp only [List.getD_eq_getElem?_getD] at h3
  simp [CallSyscall, h1, h2, h3]

/-- Witness for C8: a one-module registry whose only function has a null
pointer, dispatched via the valid opcode for (0, 0). -/
theorem C8_unimplemented_function_noop_witness :
    CallSyscall 0 [⟨String.toList "sceTest", [⟨0x1234, String.toList "testFunc", none⟩]⟩]
        (encodeSyscallOp 0 0) ⟨HLE_AFTER_NOTHING, []⟩ =
      ([.errorUnimplemented (String.toList "testFunc")], ⟨HLE_AFTER_NOTHING, []⟩) :=
  C8_unimplemented_function_noop 0
    [⟨String.toList "sceTest", [⟨0x1234, String.toList "testFunc", none⟩]⟩]
    (encodeSyscallOp 0 0) ⟨HLE_AFTER_NOTHING, []⟩ (by decide) (by decide) (by decide)

/-- Claim C9: `hleReSchedule` always raises the reschedule bit; a null reason
stores the fixed placeholder, a reason shorter than the 512-byte capacity is
stored verbatim, a reason of length at least the capacity is stored truncated
to 511 characters, and the stored string never exceeds 511 characters (so the
NUL terminator always fits in the buffer). -/
theorem C9_reschedule_reason_truncation (s : HLEState) (reason : Option (List Char)) :
    (hleReSchedule reason s).hleAfterSyscall &&& HLE_AFTER_RESCHED ≠ 0 ∧
    (reason = none →
      (hleReSchedule reason s).reschedReason = String.toList "Invalid reason") ∧
    (∀ r, reason = some r → r.length ≥ RESCHED_REASON_CAP →
      (hleReSchedule reason s).reschedReason = r.take (RESCHED_REASON_CAP - 1)) ∧
    (∀ r, reason = some r → r.length < RESCHED_REASON_CAP →
      (hleReSchedule reason s).reschedReason = r) ∧
    (hleReSchedule reason s).reschedReason.length ≤ RESCHED_REASON_CAP - 1 := by
  have hbit : (hleReSchedule reason s).hleAfterSyscall =
      s.hleAfterSyscall ||| HLE_AFTER_RESCHED := by
    unfold hleReSchedule
    cases reason with
    | none => rfl
    | some r =>
        by_cases h : r.length ≥ RESCHED_REASON_CAP <;> simp [h]
  refine ⟨?_, ?_, ?_, ?_, ?_⟩
  · rw [hbit]
    exact lor_self_land_ne_zero _ (by decide)
  · rintro rfl
    rfl
  · rintro r rfl hlen
    simp [hleReSchedule, hlen]
  · rintro r rfl hlen
    simp [hleReSchedule, Nat.not_le.mpr hlen, Nat.not_le_of_lt hlen]
  · cases reason with
    | none => simp [hleReSchedule, RESCHED_REASON_CAP]
    | some r =>
        simp only [hleReSchedule, RESCHED_REASON_CAP, ge_iff_le]
        by_cases h : 512 ≤ r.length
        · rw [if_pos h]
          simp [List.length_take]
        · rw [if_neg h]
          simp only []
          omega

/-- Witness for C9: an overlong reason (600 copies of a character) is stored
as its 511-character prefix. -/
theorem C9_reschedule_reason_truncation_witness :
    (hleReSchedule (some (List.replicate 600 'a')) ⟨HLE_AFTER_NOTHING, []⟩).reschedReason =
      (List.replicate 600 'a').take (RESCHED_REASON_CAP - 1) :=
  (C9_reschedule_reason_truncation ⟨HLE_AFTER_NOTHING, []⟩
    (some (List.replicate 600 'a'))).2.2.1 _ rfl
    (by rw [List.length_replicate]; norm_num [RESCHED_REASON_CAP])

/-- Claim C6: `WriteSyscall` with function ID 0 stamps `jr ra; nop` with no
module lookup (the result is the same for every registry); with a nonzero ID
and a registered module it stamps `jr ra` then the encoded opcode; with an
unregistered module it appends exactly one deferred record (bounded module
name, patch address, function ID) and writes nothing. -/
theorem C6_WriteSyscall_cases (moduleDB : List HLEModule) (pending : List Syscall)
    (moduleName : List Char) (nib address : Nat) :
    (WriteSyscall moduleDB pending moduleName 0 address =
      ([(address, MIPS_MAKE_JR_RA), (address + 4, MIPS_MAKE_NOP)], pending)) ∧
    (∀ moduleDB2, WriteSyscall moduleDB2 pending moduleName 0 address =
      WriteSyscall moduleDB pending moduleName 0 address) ∧
    (nib ≠ 0 → (∃ i, GetModuleIndex moduleDB moduleName = some i) →
      WriteSyscall moduleDB pending moduleName nib address =
        ([(address, MIPS_MAKE_JR_RA),
          (address + 4, GetSyscallOp moduleDB moduleName nib)], pending)) ∧
    (nib ≠ 0 → GetModuleIndex moduleDB moduleName = none →
      WriteSyscall moduleDB pending moduleName nib address =
        ([], pending ++ [⟨moduleName.take 31, address, nib⟩])) := by
  refine ⟨by simp [WriteSyscall], by simp [WriteSyscall], ?_, ?_⟩
  · rintro hnib ⟨i, hi⟩
    simp [WriteSyscall, hnib, hi]
  · intro hnib hnone
    simp [WriteSyscall, hnib, hnone]

/-- Witness for C6: with an empty registry, a nonzero-ID patch request is
deferred as exactly one record. -/
theorem C6_WriteSyscall_cases_witness :
    WriteSyscall [] [] (String.toList "sceTest") 0x42 0x08800000 =
      ([], [⟨(String.toList "sceTest").take 31, 0x08800000, 0x42⟩]) :=
  (C6_WriteSyscall_cases [] [] (String.toList "sceTest") 0x42 0x08800000).2.2.2
    (by decide) (by decide)

lemma MIPS_MAKE_J_opcode_field (target : Nat) : MIPS_MAKE_J target >>> 26 = 2 := by
  unfold MIPS_MAKE_J
  have hx : (target >>> 2) &&& 0x3FFFFFF < 2 ^ 26 := by
    rw [show (0x3FFFFFF : Nat) = 2 ^ 26 - 1 by norm_num, land_mask_eq_mod]
    exact Nat.mod_lt _ (by norm_num)
  rw [show (0x08000000 : Nat) = 2 ^ 26 * 2 by norm_num, ← Nat.mul_add_lt_is_or hx 2,
    Nat.shiftRight_eq_div_pow]
  omega

lemma MIPS_MAKE_JAL_opcode_field (target : Nat) : MIPS_MAKE_JAL target >>> 26 = 3 := by
  unfold MIPS_MAKE_JAL
  have hx : (target >>> 2) &&& 0x3FFFFFF < 2 ^ 26 := by
    rw [show (0x3FFFFFF : Nat) = 2 ^ 26 - 1 by norm_num, land_mask_eq_mod]
    exact Nat.mod_lt _ (by norm_num)
  rw [show (0x0C000000 : Nat) = 2 ^ 26 * 3 by norm_num, ← Nat.mul_add_lt_is_or hx 3,
    Nat.shiftRight_eq_div_pow]
  omega

lemma resolveWrites_eq_bind (pending : List Syscall) (moduleName : List Char)
    (nib address : Nat) :
    resolveWrites pending moduleName nib address =
      (pending.filter (fun sc => syscallMatches sc moduleName nib)).flatMap
        (fun sc => [(sc.symAddr, MIPS_MAKE_J address), (sc.symAddr + 4, MIPS_MAKE_NOP)]) := by
  induction pending with
  | nil => simp [resolveWrites]
  | cons sysc rest ih =>
      cases h : syscallMatches sysc moduleName nib <;>
        simp [resolveWrites, h, ih, List.filter_cons]

/-- Claim C7: `ResolveSyscall` writes, for every pending entry matching the
module name and function ID, an unconditional jump (MIPS J, opcode field 2,
not JAL, opcode field 3) to the target at the entry's recorded patch address
and a no-op at the following slot, and leaves the pending list unchanged. -/
theorem C7_ResolveSyscall_patches_all_matches (pending : List Syscall)
    (moduleName : List Char) (nib address : Nat) :
    (ResolveSyscall pending moduleName nib address).2 = pending ∧
    (ResolveSyscall pending moduleName nib address).1 =
      (pending.filter (fun sc => syscallMatches sc moduleName nib)).flatMap
        (fun sc => [(sc.symAddr, MIPS_MAKE_J address), (sc.symAddr + 4, MIPS_MAKE_NOP)]) ∧
    MIPS_MAKE_J address >>> 26 = 2 ∧
    MIPS_MAKE_JAL address >>> 26 = 3 ∧
    MIPS_MAKE_J address ≠ MIPS_MAKE_JAL address := by
  refine ⟨rfl, resolveWrites_eq_bind pending moduleName nib address,
    MIPS_MAKE_J_opcode_field address, MIPS_MAKE_JAL_opcode_field address, ?_⟩
  intro h
  have h2 := MIPS_MAKE_J_opcode_field address
  rw [h, MIPS_MAKE_JAL_opcode_field address] at h2
  exact absurd h2 (by norm_num)

/-- Characterization of `hleFinishSyscall`: its event trace is the
concatenation of the four coordinator phases in source order, and the final
state is either the narrowed debug-break state (pending break on a
blacklisted function) or the fully reset state. -/
lemma hleFinishSyscall_spec (nidIdle : Nat) (moduleDB : List HLEModule)
    (mn fn : Nat) (s : HLEState) :
    hleFinishSyscall nidIdle moduleDB mn fn s =
      ((if s.hleAfterSyscall &&& HLE_AFTER_CURRENT_CALLBACKS ≠ 0 then
          [HLEEvent.kernelForceCallbacks] else []) ++
       (if s.hleAfterSyscall &&& HLE_AFTER_RUN_INTERRUPTS ≠ 0 then
          [HLEEvent.runOnePendingInterrupt] else []) ++
       (if s.hleAfterSyscall &&& HLE_AFTER_RESCHED_CALLBACKS ≠ 0 then
          [HLEEvent.kernelReScheduleCB s.reschedReason]
        else if s.hleAfterSyscall &&& HLE_AFTER_RESCHED ≠ 0 then
          [HLEEvent.kernelReSchedule s.reschedReason]
        else if s.hleAfterSyscall &&& HLE_AFTER_ALL_CALLBACKS ≠ 0 then
          [HLEEvent.kernelCheckCallbacks]
        else []) ++
       (if s.hleAfterSyscall &&& HLE_AFTER_DEBUG_BREAK ≠ 0 ∧
           ¬ (blacklistedNIDs nidIdle).contains
               ((moduleDB.getD mn default).funcTable.getD fn default).ID then
          [HLEEvent.coreEnableStepping, HLEEvent.hostSetDebugMode] else []),
       if s.hleAfterSyscall &&& HLE_AFTER_DEBUG_BREAK ≠ 0 ∧
          (blacklistedNIDs nidIdle).contains
            ((moduleDB.getD mn default).funcTable.getD fn default).ID then
         ⟨HLE_AFTER_DEBUG_BREAK, []⟩
       else ⟨HLE_AFTER_NOTHING, []⟩) := by
  by_cases hd : s.hleAfterSyscall &&& HLE_AFTER_DEBUG_BREAK ≠ 0 <;>
    by_cases hb : ((moduleDB.getD mn default).funcTable.getD fn default).ID ∈
        blacklistedNIDs nidIdle <;>
      simp only [List.getD_eq_getElem?_getD] at hb <;>
      simp [hleFinishSyscall, hleExecuteDebugBreak, hd, hb]

lemma applyRequest_mask_or (s : HLEState) (r : HLERequest) :
    ∃ c, (applyRequest s r).hleAfterSyscall = s.hleAfterSyscall ||| c := by
  cases r with
  | reSchedule reason =>
      refine ⟨HLE_AFTER_RESCHED, ?_⟩
      cases reason with
      | none => rfl
      | some rr =>
          simp only [applyRequest, hleReSchedule]
          split <;> rfl
  | reScheduleCB cb reason =>
      cases cb with
      | false =>
          refine ⟨HLE_AFTER_RESCHED, ?_⟩
          simp only [applyRequest, hleReScheduleCB, Bool.false_eq_true, if_false]
          cases reason with
          | none => rfl
          | some rr =>
              simp only [hleReSchedule]
              split <;> rfl
      | true =>
          refine ⟨HLE_AFTER_RESCHED ||| HLE_AFTER_RESCHED_CALLBACKS, ?_⟩
          rw [← Nat.or_assoc]
          simp only [applyRequest, hleReScheduleCB, if_true]
          cases reason with
          | none => rfl
          | some rr =>
              simp only [hleReSchedule]
              split <;> rfl
  | checkAllCallbacks => exact ⟨HLE_AFTER_ALL_CALLBACKS, rfl⟩
  | checkCurrentCallbacks => exact ⟨HLE_AFTER_CURRENT_CALLBACKS, rfl⟩
  | runInterrupts => exact ⟨HLE_AFTER_RUN_INTERRUPTS, rfl⟩
  | debugBreak => exact ⟨HLE_AFTER_DEBUG_BREAK, rfl⟩

lemma runBody_preserves_bit {b : Nat} (body : List HLERequest) (s : HLEState)
    (h : s.hleAfterSyscall &&& b ≠ 0) :
    (runBody body s).hleAfterSyscall &&& b ≠ 0 := by
  induction body generalizing s with
  | nil => exact h
  | cons r rest ih =>
      rw [show runBody (r :: rest) s = runBody rest (applyRequest s r) from rfl]
      obtain ⟨c, hc⟩ := applyRequest_mask_or s r
      exact ih (applyRequest s r) (by rw [hc]; exact lor_land_ne_zero_of_left c h)

lemma runBody_debugBreak_sets_bit (body : List HLERequest) (s : HLEState)
    (h : HLERequest.debugBreak ∈ body) :
    (runBody body s).hleAfterSyscall &&& HLE_AFTER_DEBUG_BREAK ≠ 0 := by
  induction body generalizing s with
  | nil => cases h
  | cons r rest ih =>
      rw [show runBody (r :: rest) s = runBody rest (applyRequest s r) from rfl]
      rcases List.mem_cons.mp h with hr | hr
      · subst hr
        exact runBody_preserves_bit rest _
          (lor_self_land_ne_zero s.hleAfterSyscall (by decide))
      · exact ih _ hr

lemma coreEnableStepping_mem_finish_iff (nidIdle : Nat) (moduleDB : List HLEModule)
    (mn fn : Nat) (s : HLEState) :
    HLEEvent.coreEnableStepping ∈ (hleFinishSyscall nidIdle moduleDB mn fn s).1 ↔
      (s.hleAfterSyscall &&& HLE_AFTER_DEBUG_BREAK ≠ 0 ∧
       ((moduleDB.getD mn default).funcTable.getD fn default).ID ∉
         blacklistedNIDs nidIdle) := by
  rw [hleFinishSyscall_spec]
  simp only [List.mem_append, List.getD_eq_getElem?_getD]
  split_ifs <;> simp_all

/-- Claim C2: with the current-callbacks, run-interrupts and reschedule bits
all set, the coordinator delivers the current callbacks and dispatches
exactly one pending interrupt before the reschedule call that consumes the
stored reason; and with both reschedule bits set, only the combined
reschedule-with-all-callbacks path runs, never the plain reschedule. -/
theorem C2_coordinator_priority (nidIdle : Nat) (moduleDB : List HLEModule)
    (modulenum funcnum : Nat) (s : HLEState) :
    (s.hleAfterSyscall &&& HLE_AFTER_CURRENT_CALLBACKS ≠ 0 →
     s.hleAfterSyscall &&& HLE_AFTER_RUN_INTERRUPTS ≠ 0 →
     s.hleAfterSyscall &&& HLE_AFTER_RESCHED ≠ 0 →
     (∃ rest, (hleFinishSyscall nidIdle moduleDB modulenum funcnum s).1 =
        HLEEvent.kernelForceCallbacks :: HLEEvent.runOnePendingInterrupt ::
        (if s.hleAfterSyscall &&& HLE_AFTER_RESCHED_CALLBACKS ≠ 0 then
           HLEEvent.kernelReScheduleCB s.reschedReason
         else HLEEvent.kernelReSchedule s.reschedReason) :: rest) ∧
     (hleFinishSyscall nidIdle moduleDB modulenum funcnum s).1.count
        HLEEvent.runOnePendingInterrupt = 1) ∧
    (s.hleAfterSyscall &&& HLE_AFTER_RESCHED ≠ 0 →
     s.hleAfterSyscall &&& HLE_AFTER_RESCHED_CALLBACKS ≠ 0 →
     HLEEvent.kernelReScheduleCB s.reschedReason ∈
       (hleFinishSyscall nidIdle moduleDB modulenum funcnum s).1 ∧
     (∀ r, HLEEvent.kernelReSchedule r ∉
       (hleFinishSyscall nidIdle moduleDB modulenum funcnum s).1)) := by
  rw [hleFinishSyscall_spec]
  constructor
  · intro hcb hint hres
    by_cases hrcb : s.hleAfterSyscall &&& HLE_AFTER_RESCHED_CALLBACKS ≠ 0 <;>
      by_cases hdbg : s.hleAfterSyscall &&& HLE_AFTER_DEBUG_BREAK = 0 <;>
        by_cases hbl : ((moduleDB[modulenum]?.getD default).funcTable[funcnum]?.getD
            default).ID ∈ blacklistedNIDs nidIdle <;>
          simp [hcb, hint, hres, hrcb, hdbg, hbl, List.count_append, List.count_cons]
  · intro hres hrcb
    by_cases hcb : s.hleAfterSyscall &&& HLE_AFTER_CURRENT_CALLBACKS ≠ 0 <;>
      by_cases hint : s.hleAfterSyscall &&& HLE_AFTER_RUN_INTERRUPTS ≠ 0 <;>
        by_cases hdbg : s.hleAfterSyscall &&& HLE_AFTER_DEBUG_BREAK = 0 <;>
          by_cases hbl : ((moduleDB[modulenum]?.getD default).funcTable[funcnum]?.getD
              default).ID ∈ blacklistedNIDs nidIdle <;>
            simp [hcb, hint, hres, hrcb, hdbg, hbl]

/-- Witness for C2 at a concrete state with the current-callbacks,
run-interrupts and reschedule bits set (mask 0x13) and reason "wait". -/
theorem C2_coordinator_priority_witness :
    (hleFinishSyscall 0 [] 0 0 ⟨0x13, String.toList "wait"⟩).1.count
      HLEEvent.runOnePendingInterrupt = 1 :=
  ((C2_coordinator_priority 0 [] 0 0 ⟨0x13, String.toList "wait"⟩).1
    (by decide) (by decide) (by decide)).2

/-- Claim C3: a debug break requested while dispatching a blacklisted
function does not enter single-step mode and leaves the state narrowed to
exactly the debug-break bit with the reason cleared; the next dispatch of a
non-blacklisted function with no new debug-break request still enters
single-step mode, after which the bitmask is reset to empty. -/
theorem C3_debug_break_sticky (nidIdle : Nat) (moduleDB : List HLEModule)
    (op1 op2 : Nat) (s0 : HLEState) (body1 body2 : List HLERequest)
    (h1f : decodeFuncnum op1 ≠ 0xFFF) (h1o : op1 ≠ 0xFFFF)
    (h1func : ((moduleDB.getD (decodeModulenum op1) default).funcTable.getD
        (decodeFuncnum op1) default).func = some body1)
    (h1bl : ((moduleDB.getD (decodeModulenum op1) default).funcTable.getD
        (decodeFuncnum op1) default).ID ∈ blacklistedNIDs nidIdle)
    (h1db : HLERequest.debugBreak ∈ body1)
    (h2f : decodeFuncnum op2 ≠ 0xFFF) (h2o : op2 ≠ 0xFFFF)
    (h2func : ((moduleDB.getD (decodeModulenum op2) default).funcTable.getD
        (decodeFuncnum op2) default).func = some body2)
    (h2bl : ((moduleDB.getD (decodeModulenum op2) default).funcTable.getD
        (decodeFuncnum op2) default).ID ∉ blacklistedNIDs nidIdle)
    (h2db : HLERequest.debugBreak ∉ body2) :
    HLEEvent.coreEnableStepping ∉ (CallSyscall nidIdle moduleDB op1 s0).1 ∧
    (CallSyscall nidIdle moduleDB op1 s0).2 = ⟨HLE_AFTER_DEBUG_BREAK, []⟩ ∧
    HLEEvent.coreEnableStepping ∈
      (CallSyscall nidIdle moduleDB op2 (CallSyscall nidIdle moduleDB op1 s0).2).1 ∧
    (CallSyscall nidIdle moduleDB op2
      (CallSyscall nidIdle moduleDB op1 s0).2).2.hleAfterSyscall = HLE_AFTER_NOTHING := by
  have hbit1 := runBody_debugBreak_sets_bit body1 s0 h1db
  have hne1 : (runBody body1 s0).hleAfterSyscall ≠ HLE_AFTER_NOTHING := by
    intro h0
    rw [h0] at hbit1
    exact hbit1 (by decide)
  have hcall1 : CallSyscall nidIdle moduleDB op1 s0 =
      (HLEEvent.invoke (decodeModulenum op1) (decodeFuncnum op1) ::
        (hleFinishSyscall nidIdle moduleDB (decodeModulenum op1) (decodeFuncnum op1)
          (runBody body1 s0)).1,
       (hleFinishSyscall nidIdle moduleDB (decodeModulenum op1) (decodeFuncnum op1)
          (runBody body1 s0)).2) := by
    simp only [List.getD_eq_getElem?_getD] at h1func
    simp [CallSyscall, h1f, h1o, h1func, hne1]
  have hfin1 := hleFinishSyscall_spec nidIdle moduleDB (decodeModulenum op1)
    (decodeFuncnum op1) (runBody body1 s0)
  have h1blg : ((moduleDB[decodeModulenum op1]?.getD default).funcTable[decodeFuncnum
      op1]?.getD default).ID ∈ blacklistedNIDs nidIdle := by
    simpa [List.getD_eq_getElem?_getD] using h1bl
  have hstate1 : (CallSyscall nidIdle moduleDB op1 s0).2 =
      ⟨HLE_AFTER_DEBUG_BREAK, []⟩ := by
    rw [hcall1]
    rw [hfin1]
    simp [hbit1, h1blg]
  have hnostep1 : HLEEvent.coreEnableStepping ∉ (CallSyscall nidIdle moduleDB op1 s0).1 := by
    rw [hcall1]
    simp [coreEnableStepping_mem_finish_iff, h1blg]
  refine ⟨hnostep1, hstate1, ?_, ?_⟩
  all_goals rw [hstate1]
  all_goals
    have hbit2 : (runBody body2 ⟨HLE_AFTER_DEBUG_BREAK, []⟩).hleAfterSyscall &&&
        HLE_AFTER_DEBUG_BREAK ≠ 0 :=
      runBody_preserves_bit body2 _ (by decide)
  all_goals
    have hne2 : (runBody body2 ⟨HLE_AFTER_DEBUG_BREAK, []⟩).hleAfterSyscall ≠
        HLE_AFTER_NOTHING := by
      intro h0
      rw [h0] at hbit2
      exact hbit2 (by decide)
  all_goals
    have hcall2 : CallSyscall nidIdle moduleDB op2 ⟨HLE_AFTER_DEBUG_BREAK, []⟩ =
        (HLEEvent.invoke (decodeModulenum op2) (decodeFuncnum op2) ::
          (hleFinishSyscall nidIdle moduleDB (decodeModulenum op2) (decodeFuncnum op2)
            (runBody body2 ⟨HLE_AFTER_DEBUG_BREAK, []⟩)).1,
         (hleFinishSyscall nidIdle moduleDB (decodeModulenum op2) (decodeFuncnum op2)
            (runBody body2 ⟨HLE_AFTER_DEBUG_BREAK, []⟩)).2) := by
      have h2func2 := h2func
      simp only [List.getD_eq_getElem?_getD] at h2func2
      simp [CallSyscall, h2f, h2o, h2func2, hne2]
  all_goals
    have h2blg : ((moduleDB[decodeModulenum op2]?.getD default).funcTable[decodeFuncnum
        op2]?.getD default).ID ∉ blacklistedNIDs nidIdle := by
      simpa [List.getD_eq_getElem?_getD] using h2bl
  all_goals rw [hcall2,
    hleFinishSyscall_spec nidIdle moduleDB (decodeModulenum op2) (decodeFuncnum op2)
      (runBody body2 ⟨HLE_AFTER_DEBUG_BREAK, []⟩)]
  · simp [hbit2, h2blg]
  · simp [hbit2, h2blg]

/-- Witness for C3: a two-function module whose first entry is the
suspend-interrupt NID requesting a debug break; dispatching it and then the
second (ordinary) function ends with an empty bitmask. -/
theorem C3_debug_break_sticky_witness :
    (CallSyscall 0
      [⟨String.toList "sceSuspend",
        [⟨NID_SUSPEND_INTR, String.toList "suspendIntr", some [HLERequest.debugBreak]⟩,
         ⟨0x1111, String.toList "work", some []⟩]⟩]
      (encodeSyscallOp 0 1)
      (CallSyscall 0
        [⟨String.toList "sceSuspend",
          [⟨NID_SUSPEND_INTR, String.toList "suspendIntr", some [HLERequest.debugBreak]⟩,
           ⟨0x1111, String.toList "work", some []⟩]⟩]
        (encodeSyscallOp 0 0) ⟨HLE_AFTER_NOTHING, []⟩).2).2.hleAfterSyscall =
      HLE_AFTER_NOTHING :=
  (C3_debug_break_sticky 0
    [⟨String.toList "sceSuspend",
      [⟨NID_SUSPEND_INTR, String.toList "suspendIntr", some [HLERequest.debugBreak]⟩,
       ⟨0x1111, String.toList "work", some []⟩]⟩]
    (encodeSyscallOp 0 0) (encodeSyscallOp 0 1) ⟨HLE_AFTER_NOTHING, []⟩
    [HLERequest.debugBreak] []
    (by decide) (by decide) (by decide) (by decide) (by decide)
    (by decide) (by decide) (by decide) (by decide) (by decide)).2.2.2

lemma CallSyscall_state_cases (nidIdle : Nat) (moduleDB : List HLEModule) (op : Nat)
    (s : HLEState) :
    (CallSyscall nidIdle moduleDB op s).2 = s ∨
    (CallSyscall nidIdle moduleDB op s).2.hleAfterSyscall = HLE_AFTER_NOTHING ∨
    (CallSyscall nidIdle moduleDB op s).2.hleAfterSyscall = HLE_AFTER_DEBUG_BREAK := by
  by_cases h1 : decodeFuncnum op = 0xFFF ∨ op = 0xFFFF
  · left
    rcases h1 with h | h <;> simp [CallSyscall, h]
  · push_neg at h1
    cases hfn : ((moduleDB.getD (decodeModulenum op) default).funcTable.getD
        (decodeFuncnum op) default).func with
    | none =>
        left
        simp only [List.getD_eq_getElem?_getD] at hfn
        simp [CallSyscall, h1.1, h1.2, hfn]
    | some body =>
        by_cases h2 : (runBody body s).hleAfterSyscall = HLE_AFTER_NOTHING
        · right; left
          simp only [List.getD_eq_getElem?_getD] at hfn
          simp [CallSyscall, h1.1, h1.2, hfn, h2]
        · have hfn2 := hfn
          simp only [List.getD_eq_getElem?_getD] at hfn2
          have hcall : (CallSyscall nidIdle moduleDB op s).2 =
              (hleFinishSyscall nidIdle moduleDB (decodeModulenum op) (decodeFuncnum op)
                (runBody body s)).2 := by
            simp [CallSyscall, h1.1, h1.2, hfn2, h2]
          rw [hcall, hleFinishSyscall_spec]
          by_cases h3 : (runBody body s).hleAfterSyscall &&& HLE_AFTER_DEBUG_BREAK ≠ 0 ∧
              (blacklistedNIDs nidIdle).contains
                ((moduleDB.getD (decodeModulenum op) default).funcTable.getD
                  (decodeFuncnum op) default).ID = true
          · right; right
            have h3m : ((moduleDB[decodeModulenum op]?.getD default).funcTable[decodeFuncnum
                op]?.getD default).ID ∈ blacklistedNIDs nidIdle := by
              simpa [List.getD_eq_getElem?_getD] using h3.2
            simp [h3.1, h3m]
          · right; left
            simp only []
            rw [if_neg h3]

/-- Claim C10: with request operations raised only inside dispatched bodies,
the bitmask seen at every entry to `CallSyscall` is empty or exactly the
debug-break bit: every completed dispatch resets or narrows it so, the
finish step always ends in one of those two masks, and the sentinel-abort
and unimplemented-function paths leave the state unchanged. -/
theorem C10_bitmask_invariant (nidIdle : Nat) (moduleDB : List HLEModule) :
    (∀ s, DispatchReachable nidIdle moduleDB s →
        s.hleAfterSyscall = HLE_AFTER_NOTHING ∨
        s.hleAfterSyscall = HLE_AFTER_DEBUG_BREAK) ∧
    (∀ mn fn s,
        (hleFinishSyscall nidIdle moduleDB mn fn s).2.hleAfterSyscall =
          HLE_AFTER_NOTHING ∨
        (hleFinishSyscall nidIdle moduleDB mn fn s).2.hleAfterSyscall =
          HLE_AFTER_DEBUG_BREAK) ∧
    (∀ op s, decodeFuncnum op = 0xFFF ∨ op = 0xFFFF →
        (CallSyscall nidIdle moduleDB op s).2 = s) ∧
    (∀ op s, decodeFuncnum op ≠ 0xFFF → op ≠ 0xFFFF →
        ((moduleDB.getD (decodeModulenum op) default).funcTable.getD (decodeFuncnum op)
            default).func = none →
        (CallSyscall nidIdle moduleDB op s).2 = s) := by
  refine ⟨?_, ?_, ?_, ?_⟩
  · intro s hs
    induction hs with
    | init => left; rfl
    | step s0 op h ih =>
        rcases CallSyscall_state_cases nidIdle moduleDB op s0 with hc | hc | hc
        · rw [hc]; exact ih
        · left; exact hc
        · right; exact hc
  · intro mn fn s
    rw [hleFinishSyscall_spec]
    simp only []
    split
    · right; rfl
    · left; rfl
  · intro op s h
    rcases h with h | h <;> simp [CallSyscall, h]
  · intro op s h1 h2 h3
    simp only [List.getD_eq_getElem?_getD] at h3
    simp [CallSyscall, h1, h2, h3]

/-- Witness for C10: the initial state satisfies the invariant, and the
sentinel-abort path leaves a concrete state untouched. -/
theorem C10_bitmask_invariant_witness :
    ((⟨HLE_AFTER_NOTHING, []⟩ : HLEState).hleAfterSyscall = HLE_AFTER_NOTHING ∨
     (⟨HLE_AFTER_NOTHING, []⟩ : HLEState).hleAfterSyscall = HLE_AFTER_DEBUG_BREAK) ∧
    (CallSyscall 0 [] 0xFFFF ⟨0x07, []⟩).2 = ⟨0x07, []⟩ :=
  ⟨(C10_bitmask_invariant 0 []).1 _ DispatchReachable.init,
   (C10_bitmask_invariant 0 []).2.2.1 0xFFFF ⟨0x07, []⟩ (Or.inr rfl)⟩

end PPSSPP
